import Mathlib

/-!
# Verification of the Market-salary-analysis statistics core

A shallow embedding of the salary-statistics engine of the
Market-salary-analysis repository, together with proofs of the
specification's claims about it.

Conventions of the embedding:

* JavaScript numbers are modelled as exact rationals (`ℚ`); the spec states
  the percentile formula over real numbers, and every operation involved
  (`+`, `-`, `*`, `/`, `floor`, comparison) is exact on ℚ.
* `Array.prototype.sort` with the ascending numeric comparator
  `(a, b) => a - b` is modelled as `List.insertionSort (· ≤ ·)`; an
  ascending sort of a list of plain values is unique, so the choice of
  sorting algorithm is immaterial.
* `String.prototype.includes` is modelled as infix containment of the
  underlying character lists.
* JavaScript objects keyed by string (the per-position filter record) are
  modelled as association lists queried with `List.lookup`.
* `Date.now()` and `Math.random()` (used only to build the `id` and the
  fallback `link` of a crawled record) are modelled as explicit string
  parameters: they never influence any other field.
-/

/-- `SalaryStats` record, from `types.ts`. -/
structure SalaryStats where
  min : ℚ
  p25 : ℚ
  p50 : ℚ
  p75 : ℚ
  max : ℚ
  sampleSize : ℕ
deriving DecidableEq

/-- `TargetPosition` record, from `types.ts`. -/
structure TargetPosition where
  id : String
  category : String
  name : String
  responsibilities : String
  keywords : List String
  competitors : List String
deriving DecidableEq

/-- `CrawledJobData` record, from `types.ts` (the `JobPosting` of the spec). -/
structure CrawledJobData where
  id : String
  targetPositionId : String
  externalJobTitle : String
  companyName : String
  location : String
  minMonthlySalary : ℚ
  maxMonthlySalary : ℚ
  monthsPerYear : ℚ
  jobResponsibilitySnippet : String
  benefits : List String
  source : String
  link : String
  isCompetitor : Bool
deriving DecidableEq

/-- `s.includes(pattern)` of JavaScript: `pattern` occurs contiguously in `s`. -/
def strIncludes (s pattern : String) : Bool :=
  decide (pattern.data <:+: s.data)

/-- `[...salaries].sort((a, b) => a - b)` from `computeSalaryStats`:
the ascending sort of the sample. -/
def sortAscending (salaries : List ℚ) : List ℚ :=
  List.insertionSort (· ≤ ·) salaries

/-- `calculatePercentile` from `utils/calculations.ts`:
rank `L = (P/100)*(n+1)`, split into integer part `k` and fractional part
`d`, 0-based index `idx = k - 1`; clamp below the first and at/above the
last order statistic, otherwise interpolate linearly. -/
def calculatePercentile (sortedData : List ℚ) (percentile : ℚ) : ℚ :=
  let n := sortedData.length
  if n = 0 then 0
  else if n = 1 then sortedData.getD 0 0
  else
    let L : ℚ := (percentile / 100) * ((n : ℚ) + 1)
    let k : ℤ := ⌊L⌋
    let d : ℚ := L - (k : ℚ)
    let idx : ℤ := k - 1
    if idx < 0 then sortedData.getD 0 0
    else if idx ≥ (n : ℤ) - 1 then sortedData.getD (n - 1) 0
    else
      sortedData.getD idx.toNat 0 +
        (sortedData.getD (idx.toNat + 1) 0 - sortedData.getD idx.toNat 0) * d

/-- `computeSalaryStats` from `utils/calculations.ts`. -/
def computeSalaryStats (salaries : List ℚ) : SalaryStats :=
  let sorted := sortAscending salaries
  let n := sorted.length
  if n = 0 then { min := 0, p25 := 0, p50 := 0, p75 := 0, max := 0, sampleSize := 0 }
  else
    { min := sorted.getD 0 0
      p25 := calculatePercentile sorted 25
      p50 := calculatePercentile sorted 50
      p75 := calculatePercentile sorted 75
      max := sorted.getD (n - 1) 0
      sampleSize := n }

/-- Proof-side restatement of the general-case body of `calculatePercentile`
as a function of the fractional rank `L`; `calculatePercentile` on a sample
of length at least two is definitionally `interpVal` at
`L = (P/100)*(n+1)`. -/
def interpVal (xs : List ℚ) (L : ℚ) : ℚ :=
  let n := xs.length
  let k : ℤ := ⌊L⌋
  let d : ℚ := L - (k : ℚ)
  let idx : ℤ := k - 1
  if idx < 0 then xs.getD 0 0
  else if idx ≥ (n : ℤ) - 1 then xs.getD (n - 1) 0
  else
    xs.getD idx.toNat 0 +
      (xs.getD (idx.toNat + 1) 0 - xs.getD idx.toNat 0) * d

/-- The percentile rule exactly as the specification states it, written from
the spec's words for the refinement claim: with the sample already sorted
ascending, `L = (P/100)*(n+1)`, `k = floor L`, `d = L - k`, `idx = k - 1`,
the result is `sorted[0]` if `idx < 0`, `sorted[n-1]` if `idx ≥ n-1`, and
otherwise `sorted[idx] + (sorted[idx+1] - sorted[idx]) * d`. -/
def specPercentileRule (sorted : List ℚ) (P : ℚ) : ℚ :=
  let n := sorted.length
  let L : ℚ := (P / 100) * ((n : ℚ) + 1)
  let k : ℤ := ⌊L⌋
  let d : ℚ := L - (k : ℚ)
  let idx : ℤ := k - 1
  if idx < 0 then sorted.getD 0 0
  else if idx ≥ (n : ℤ) - 1 then sorted.getD (n - 1) 0
  else
    sorted.getD idx.toNat 0 +
      (sorted.getD (idx.toNat + 1) 0 - sorted.getD idx.toNat 0) * d

/-- The textbook median, written from the claim's words for the refinement
claim: the middle element of the ascending-sorted sample when its length is
odd, the mean of the two middle elements when it is even. -/
def textbookMedian (sample : List ℚ) : ℚ :=
  let sorted := sortAscending sample
  let n := sorted.length
  if n % 2 = 1 then sorted.getD (n / 2) 0
  else (sorted.getD (n / 2 - 1) 0 + sorted.getD (n / 2) 0) / 2

/-- Per-position filter mode, from `AnalysisDashboard.tsx`. -/
inductive FilterMode where
  | ALL
  | ONLY_COMPETITORS
  | CUSTOM
deriving DecidableEq

/-- `PositionFilter` from `AnalysisDashboard.tsx`. -/
structure PositionFilter where
  mode : FilterMode
  selectedCompanies : List String

/-- `getFilterForPosition`: look the position id up in the filter record,
defaulting to `{mode: 'ALL', selectedCompanies: []}`. -/
def getFilterForPosition (positionFilters : List (String × PositionFilter)) (id : String) :
    PositionFilter :=
  match positionFilters.lookup id with
  | some f => f
  | none => { mode := FilterMode.ALL, selectedCompanies := [] }

/-- Steps 1-3 of the `aggregatedStats` pipeline in `AnalysisDashboard.tsx`:
the postings for the position, restricted by the global location filter
(skipped when no location is selected), then by the per-position company
filter. -/
def posDataFor (data : List CrawledJobData) (selectedLocations : List String)
    (positionFilters : List (String × PositionFilter)) (pos : TargetPosition) :
    List CrawledJobData :=
  let posData0 := data.filter (fun d => d.targetPositionId == pos.id)
  let posData1 :=
    if selectedLocations.length > 0 then
      posData0.filter (fun d => selectedLocations.any (fun loc => strIncludes d.location loc))
    else posData0
  let filter := getFilterForPosition positionFilters pos.id
  match filter.mode with
  | FilterMode.ONLY_COMPETITORS => posData1.filter (fun d => d.isCompetitor)
  | FilterMode.CUSTOM => posData1.filter (fun d => filter.selectedCompanies.contains d.companyName)
  | FilterMode.ALL => posData1

/-- `monthlySalaries`: mean of the posted range, per surviving posting. -/
def monthlySalariesOf (posData : List CrawledJobData) : List ℚ :=
  posData.map (fun d => (d.minMonthlySalary + d.maxMonthlySalary) / 2)

/-- `yearlySalaries`: the monthly mean times the posting's months-per-year. -/
def yearlySalariesOf (posData : List CrawledJobData) : List ℚ :=
  posData.map (fun d => ((d.minMonthlySalary + d.maxMonthlySalary) / 2) * d.monthsPerYear)

/-- `availableCompaniesInLocation`: distinct company names among the
position's postings surviving the location filter only, sorted. -/
def availableCompaniesFor (data : List CrawledJobData) (selectedLocations : List String)
    (pos : TargetPosition) : List String :=
  List.insertionSort (fun a b => a ≤ b)
    (((data.filter (fun d => d.targetPositionId == pos.id)).filter
        (fun d =>
          selectedLocations.length == 0 ||
            selectedLocations.any (fun loc => strIncludes d.location loc))).map
      (fun d => d.companyName)).eraseDups

/-- One emitted aggregation result, as built inside `aggregatedStats`. -/
structure AggregatedStat where
  targetPosition : TargetPosition
  monthly : SalaryStats
  yearly : SalaryStats
  sampleSize : ℕ
  availableCompaniesInLocation : List String

/-- The map step of `aggregatedStats` for one position. -/
def aggregateForPosition (data : List CrawledJobData) (selectedLocations : List String)
    (positionFilters : List (String × PositionFilter)) (pos : TargetPosition) :
    AggregatedStat :=
  let posData := posDataFor data selectedLocations positionFilters pos
  { targetPosition := pos
    monthly := computeSalaryStats (monthlySalariesOf posData)
    yearly := computeSalaryStats (yearlySalariesOf posData)
    sampleSize := posData.length
    availableCompaniesInLocation := availableCompaniesFor data selectedLocations pos }

/-- The final `.filter` of `aggregatedStats`: drop a card when the search
query is non-empty and does not match the position name (case-insensitive
substring), or when no posting for the position exists anywhere in the full
collection. -/
def visibleStat (data : List CrawledJobData) (searchQuery : String) (stat : AggregatedStat) :
    Bool :=
  if searchQuery != "" &&
      !(strIncludes stat.targetPosition.name.toLower searchQuery.toLower) then false
  else if !(data.any (fun d => d.targetPositionId == stat.targetPosition.id)) then false
  else true

/-- `aggregatedStats` from `AnalysisDashboard.tsx`: one result per target
position, filtered by the visibility rule. -/
def aggregatedStats (data : List CrawledJobData) (targetPositions : List TargetPosition)
    (selectedLocations : List String) (positionFilters : List (String × PositionFilter))
    (searchQuery : String) : List AggregatedStat :=
  (targetPositions.map (aggregateForPosition data selectedLocations positionFilters)).filter
    (visibleStat data searchQuery)

/-- A raw record returned by the acquisition provider, as consumed by
`simulateMarketCrawl` in `geminiService.ts`; the fields that the source
defaults with `||` are optional. -/
structure RawPosting where
  externalJobTitle : String
  companyName : String
  location : String
  minMonthlySalary : ℚ
  maxMonthlySalary : ℚ
  monthsPerYear : ℚ
  jobResponsibilitySnippet : String
  benefits : Option (List String)
  source : Option String
  link : Option String

/-- The success-path mapping of `simulateMarketCrawl`: one raw provider
record becomes one `CrawledJobData`; `now` stands for `Date.now()` and
`randomLink` for the randomly generated fallback link. -/
def crawlResultItem (target : TargetPosition) (now randomLink : String)
    (item : RawPosting) (index : ℕ) : CrawledJobData :=
  { id := target.id ++ "-crawl-" ++ now ++ "-" ++ toString index
    targetPositionId := target.id
    externalJobTitle := item.externalJobTitle
    companyName := item.companyName
    location := item.location
    minMonthlySalary := item.minMonthlySalary
    maxMonthlySalary := item.maxMonthlySalary
    monthsPerYear := item.monthsPerYear
    jobResponsibilitySnippet := item.jobResponsibilitySnippet
    benefits := item.benefits.getD []
    source := item.source.getD "BOSS直聘"
    link := item.link.getD randomLink
    isCompetitor :=
      target.competitors.any (fun c => strIncludes item.companyName.toLower c.toLower) }

/-- The success path of `simulateMarketCrawl`: `rawData.map((item, index) => ...)`. -/
def simulateMarketCrawlSuccess (target : TargetPosition) (now randomLink : String)
    (rawData : List RawPosting) : List CrawledJobData :=
  rawData.mapIdx (fun index item => crawlResultItem target now randomLink item index)

/-- The catch branch of `simulateMarketCrawl`: the hard-coded fallback mock
record returned after a provider failure (`target.competitors[0] || '未知公司'`
is modelled with `headD`). -/
def simulateMarketCrawlFallback (target : TargetPosition) : List CrawledJobData :=
  [{ id := "fallback-1"
     targetPositionId := target.id
     externalJobTitle := target.name
     companyName := target.competitors.headD "未知公司"
     location := "广州"
     minMonthlySalary := 15000
     maxMonthlySalary := 25000
     monthsPerYear := 13
     jobResponsibilitySnippet := "负责采购流程管理，供应商开发与维护。"
     benefits := ["五险一金"]
     source := "系统模拟"
     link := "https://www.example.com/job/123"
     isCompetitor := true }]

/-- A spreadsheet row as seen by `handleFileChange` in `DataCollection.tsx`,
after the flexible column-name coalescing (`row['岗位名称'] || row['岗位'] || ...`);
`none` models a field whose every alias is missing or falsy. -/
structure SheetRow where
  name : Option String
  resp : Option String
  keywordStr : Option String
  competitorStr : Option String

/-- `String(s).split(/[,，、\x5cs]+/).filter(k => k.trim() !== '')`:
split on commas (ASCII and full-width), enumeration comma and whitespace,
dropping blank pieces. -/
def splitTermList (s : String) : List String :=
  (s.split (fun c => c == ',' || c == '，' || c == '、' || c.isWhitespace)).filter
    (fun k => k.trim != "")

/-- One iteration of the row loop in `handleFileChange`: a `TargetPosition`
is produced only when both the name and the responsibilities field are
present; `newId` stands for the generated `imported-${Date.now()}-...` id. -/
def importRow (row : SheetRow) (newId : String) : Option TargetPosition :=
  match row.name, row.resp with
  | some name, some resp =>
    some { id := newId
           category := "导入"
           name := name.trim
           responsibilities := resp.trim
           keywords := splitTermList (row.keywordStr.getD "")
           competitors := splitTermList (row.competitorStr.getD "") }
  | _, _ => none

/-! ## Concrete records used by witness and counterexample theorems -/

/-- A target position with one competitor, used by concrete checks. -/
def pos1 : TargetPosition :=
  { id := "1"
    category := "广分"
    name := "跨境供应商开发"
    responsibilities := "负责各类供应商的开发"
    keywords := ["买手"]
    competitors := ["SHEIN"] }

/-- A posting in 广州 from a competitor company, for `pos1`. -/
def jobGzComp : CrawledJobData :=
  { id := "a"
    targetPositionId := "1"
    externalJobTitle := "供应商开发"
    companyName := "SHEIN"
    location := "广州"
    minMonthlySalary := 10000
    maxMonthlySalary := 20000
    monthsPerYear := 13
    jobResponsibilitySnippet := "供应商开发"
    benefits := []
    source := "BOSS直聘"
    link := "https://www.zhipin.com/job_detail/1.html"
    isCompetitor := true }

/-- A posting in 广州 from a non-competitor company, for `pos1`. -/
def jobGzOther : CrawledJobData :=
  { jobGzComp with
    id := "b"
    companyName := "其他公司"
    minMonthlySalary := 8000
    maxMonthlySalary := 12000
    isCompetitor := false }

/-- A posting in 深圳 from a competitor company, for `pos1`. -/
def jobSzComp : CrawledJobData :=
  { jobGzComp with
    id := "c"
    location := "深圳"
    minMonthlySalary := 12000
    maxMonthlySalary := 22000 }

/-- A three-posting collection over two locations with mixed competitor
status. -/
def marketData : List CrawledJobData := [jobGzComp, jobGzOther, jobSzComp]

/-- A per-position filter record selecting `ONLY_COMPETITORS` for `pos1`. -/
def compFilters : List (String × PositionFilter) :=
  [("1", { mode := FilterMode.ONLY_COMPETITORS, selectedCompanies := [] })]

/-- A per-position filter record selecting `CUSTOM` with an empty company
allow-set for `pos1`. -/
def customEmptyFilters : List (String × PositionFilter) :=
  [("1", { mode := FilterMode.CUSTOM, selectedCompanies := [] })]

/-- The posting of the spec's annualization example:
`min=10000, max=20000, monthsPerYear=13`. -/
def sampleJob : CrawledJobData :=
  { jobGzComp with id := "d", minMonthlySalary := 10000, maxMonthlySalary := 20000 }

/-- A raw provider record whose company is the competitor itself. -/
def sheinRaw : RawPosting :=
  { externalJobTitle := "采购专员"
    companyName := "SHEIN"
    location := "广州"
    minMonthlySalary := 12000
    maxMonthlySalary := 18000
    monthsPerYear := 13
    jobResponsibilitySnippet := "采购"
    benefits := none
    source := none
    link := none }

/-- A target position with a non-empty competitor set. -/
def sheinTarget : TargetPosition :=
  { pos1 with id := "2" }

/-- A target position whose competitor set is empty. -/
def emptyCompetitorTarget : TargetPosition :=
  { pos1 with id := "3", competitors := [] }

/-! ## Order-statistic helper lemmas -/

theorem getD_le_getD_of_sorted {xs : List ℚ} (hs : xs.Sorted (· ≤ ·)) {i j : ℕ}
    (hij : i ≤ j) (hj : j < xs.length) : xs.getD i 0 ≤ xs.getD j 0 := by
  have hi : i < xs.length := Nat.lt_of_le_of_lt hij hj
  rw [List.getD_eq_getElem xs 0 hi, List.getD_eq_getElem xs 0 hj]
  rcases Nat.eq_or_lt_of_le hij with rfl | h
  · exact le_refl _
  · have h2 := hs.rel_get_of_lt
      (show (⟨i, hi⟩ : Fin xs.length) < (⟨j, hj⟩ : Fin xs.length) from h)
    simpa [List.get_eq_getElem] using h2

theorem interp_between {x y d : ℚ} (hxy : x ≤ y) (hd0 : 0 ≤ d) (hd1 : d ≤ 1) :
    x ≤ x + (y - x) * d ∧ x + (y - x) * d ≤ y := by
  constructor <;> nlinarith

theorem interpVal_def (xs : List ℚ) (L : ℚ) :
    interpVal xs L =
      if (⌊L⌋ - 1 : ℤ) < 0 then xs.getD 0 0
      else if (⌊L⌋ - 1 : ℤ) ≥ (xs.length : ℤ) - 1 then xs.getD (xs.length - 1) 0
      else
        xs.getD (⌊L⌋ - 1).toNat 0 +
          (xs.getD ((⌊L⌋ - 1).toNat + 1) 0 - xs.getD (⌊L⌋ - 1).toNat 0) *
            (L - (⌊L⌋ : ℚ)) := rfl

theorem interpVal_eq_head {xs : List ℚ} {L : ℚ} (h : (⌊L⌋ - 1 : ℤ) < 0) :
    interpVal xs L = xs.getD 0 0 := by
  rw [interpVal_def, if_pos h]

theorem interpVal_eq_last {xs : List ℚ} {L : ℚ} (h1 : ¬(⌊L⌋ - 1 : ℤ) < 0)
    (h2 : (⌊L⌋ - 1 : ℤ) ≥ (xs.length : ℤ) - 1) :
    interpVal xs L = xs.getD (xs.length - 1) 0 := by
  rw [interpVal_def, if_neg h1, if_pos h2]

theorem interpVal_eq_interior {xs : List ℚ} {L : ℚ} (h1 : ¬(⌊L⌋ - 1 : ℤ) < 0)
    (h2 : ¬(⌊L⌋ - 1 : ℤ) ≥ (xs.length : ℤ) - 1) :
    interpVal xs L =
      xs.getD (⌊L⌋ - 1).toNat 0 +
        (xs.getD ((⌊L⌋ - 1).toNat + 1) 0 - xs.getD (⌊L⌋ - 1).toNat 0) *
          (L - (⌊L⌋ : ℚ)) := by
  rw [interpVal_def, if_neg h1, if_neg h2]

theorem fract_nonneg_of_floor (L : ℚ) : 0 ≤ L - (⌊L⌋ : ℚ) := by
  have := Int.floor_le L; linarith

theorem fract_le_one_of_floor (L : ℚ) : L - (⌊L⌋ : ℚ) ≤ 1 := by
  have := Int.lt_floor_add_one L; linarith

theorem head_le_interpVal {xs : List ℚ} (hs : xs.Sorted (· ≤ ·)) (hn : 1 ≤ xs.length)
    (L : ℚ) : xs.getD 0 0 ≤ interpVal xs L := by
  by_cases h1 : (⌊L⌋ - 1 : ℤ) < 0
  · rw [interpVal_eq_head h1]
  by_cases h2 : (⌊L⌋ - 1 : ℤ) ≥ (xs.length : ℤ) - 1
  · rw [interpVal_eq_last h1 h2]
    exact getD_le_getD_of_sorted hs (Nat.zero_le _) (by omega)
  · rw [interpVal_eq_interior h1 h2]
    have hidx : ((⌊L⌋ - 1).toNat : ℤ) = ⌊L⌋ - 1 := Int.toNat_of_nonneg (by omega)
    have hlt : (⌊L⌋ - 1).toNat + 1 < xs.length := by omega
    have hxy : xs.getD (⌊L⌋ - 1).toNat 0 ≤ xs.getD ((⌊L⌋ - 1).toNat + 1) 0 :=
      getD_le_getD_of_sorted hs (Nat.le_succ _) hlt
    calc xs.getD 0 0 ≤ xs.getD (⌊L⌋ - 1).toNat 0 :=
          getD_le_getD_of_sorted hs (Nat.zero_le _) (by omega)
      _ ≤ _ := (interp_between hxy (fract_nonneg_of_floor L) (fract_le_one_of_floor L)).1

theorem interpVal_le_last {xs : List ℚ} (hs : xs.Sorted (· ≤ ·)) (hn : 1 ≤ xs.length)
    (L : ℚ) : interpVal xs L ≤ xs.getD (xs.length - 1) 0 := by
  by_cases h1 : (⌊L⌋ - 1 : ℤ) < 0
  · rw [interpVal_eq_head h1]
    exact getD_le_getD_of_sorted hs (Nat.zero_le _) (by omega)
  by_cases h2 : (⌊L⌋ - 1 : ℤ) ≥ (xs.length : ℤ) - 1
  · rw [interpVal_eq_last h1 h2]
  · rw [interpVal_eq_interior h1 h2]
    have hidx : ((⌊L⌋ - 1).toNat : ℤ) = ⌊L⌋ - 1 := Int.toNat_of_nonneg (by omega)
    have hlt : (⌊L⌋ - 1).toNat + 1 < xs.length := by omega
    have hxy : xs.getD (⌊L⌋ - 1).toNat 0 ≤ xs.getD ((⌊L⌋ - 1).toNat + 1) 0 :=
      getD_le_getD_of_sorted hs (Nat.le_succ _) hlt
    calc xs.getD (⌊L⌋ - 1).toNat 0 +
          (xs.getD ((⌊L⌋ - 1).toNat + 1) 0 - xs.getD (⌊L⌋ - 1).toNat 0) * (L - (⌊L⌋ : ℚ)) ≤
          xs.getD ((⌊L⌋ - 1).toNat + 1) 0 :=
          (interp_between hxy (fract_nonneg_of_floor L) (fract_le_one_of_floor L)).2
      _ ≤ _ := getD_le_getD_of_sorted hs (by omega) (by omega)

theorem interpVal_mono {xs : List ℚ} (hs : xs.Sorted (· ≤ ·)) (hn : 1 ≤ xs.length)
    {L1 L2 : ℚ} (hL : L1 ≤ L2) : interpVal xs L1 ≤ interpVal xs L2 := by
  have hk : ⌊L1⌋ ≤ ⌊L2⌋ := Int.floor_le_floor hL
  by_cases h1 : (⌊L1⌋ - 1 : ℤ) < 0
  · rw [interpVal_eq_head h1]
    exact head_le_interpVal hs hn L2
  by_cases h2 : (⌊L1⌋ - 1 : ℤ) ≥ (xs.length : ℤ) - 1
  · have h3 : ¬(⌊L2⌋ - 1 : ℤ) < 0 := by omega
    have h4 : (⌊L2⌋ - 1 : ℤ) ≥ (xs.length : ℤ) - 1 := by omega
    rw [interpVal_eq_last h1 h2, interpVal_eq_last h3 h4]
  -- L1 is in the interior
  rw [interpVal_eq_interior h1 h2]
  have hidx1 : ((⌊L1⌋ - 1).toNat : ℤ) = ⌊L1⌋ - 1 := Int.toNat_of_nonneg (by omega)
  have hlt1 : (⌊L1⌋ - 1).toNat + 1 < xs.length := by omega
  have hxy1 : xs.getD (⌊L1⌋ - 1).toNat 0 ≤ xs.getD ((⌊L1⌋ - 1).toNat + 1) 0 :=
    getD_le_getD_of_sorted hs (Nat.le_succ _) hlt1
  have hup1 :
      xs.getD (⌊L1⌋ - 1).toNat 0 +
        (xs.getD ((⌊L1⌋ - 1).toNat + 1) 0 - xs.getD (⌊L1⌋ - 1).toNat 0) *
          (L1 - (⌊L1⌋ : ℚ)) ≤ xs.getD ((⌊L1⌋ - 1).toNat + 1) 0 :=
    (interp_between hxy1 (fract_nonneg_of_floor L1) (fract_le_one_of_floor L1)).2
  by_cases h4 : (⌊L2⌋ - 1 : ℤ) ≥ (xs.length : ℤ) - 1
  · have h3 : ¬(⌊L2⌋ - 1 : ℤ) < 0 := by omega
    rw [interpVal_eq_last h3 h4]
    exact le_trans hup1 (getD_le_getD_of_sorted hs (by omega) (by omega))
  · have h3 : ¬(⌊L2⌋ - 1 : ℤ) < 0 := by omega
    rw [interpVal_eq_interior h3 h4]
    have hidx2 : ((⌊L2⌋ - 1).toNat : ℤ) = ⌊L2⌋ - 1 := Int.toNat_of_nonneg (by omega)
    have hlt2 : (⌊L2⌋ - 1).toNat + 1 < xs.length := by omega
    have hxy2 : xs.getD (⌊L2⌋ - 1).toNat 0 ≤ xs.getD ((⌊L2⌋ - 1).toNat + 1) 0 :=
      getD_le_getD_of_sorted hs (Nat.le_succ _) hlt2
    rcases eq_or_lt_of_le hk with heq | hklt
    · -- same integer rank: compare the fractional parts
      have hfr : L1 - (⌊L1⌋ : ℚ) ≤ L2 - (⌊L2⌋ : ℚ) := by
        rw [← heq]; linarith
      rw [← heq] at hidx2 ⊢
      nlinarith [hxy1, hfr, fract_nonneg_of_floor L1]
    · -- strictly larger integer rank
      have hle : (⌊L1⌋ - 1).toNat + 1 ≤ (⌊L2⌋ - 1).toNat := by omega
      calc xs.getD (⌊L1⌋ - 1).toNat 0 +
            (xs.getD ((⌊L1⌋ - 1).toNat + 1) 0 - xs.getD (⌊L1⌋ - 1).toNat 0) *
              (L1 - (⌊L1⌋ : ℚ)) ≤ xs.getD ((⌊L1⌋ - 1).toNat + 1) 0 := hup1
        _ ≤ xs.getD (⌊L2⌋ - 1).toNat 0 := getD_le_getD_of_sorted hs hle (by omega)
        _ ≤ _ :=
          (interp_between hxy2 (fract_nonneg_of_floor L2) (fract_le_one_of_floor L2)).1

/-! ## Lemmas about the sorting step and `calculatePercentile` -/

theorem sorted_sortAscending (l : List ℚ) : (sortAscending l).Sorted (· ≤ ·) :=
  List.sorted_insertionSort _ l

theorem perm_sortAscending (l : List ℚ) : (sortAscending l).Perm l :=
  List.perm_insertionSort _ l

theorem length_sortAscending (l : List ℚ) : (sortAscending l).length = l.length :=
  List.length_insertionSort _ l

theorem calculatePercentile_eq_interpVal {xs : List ℚ} (h0 : xs.length ≠ 0)
    (h1 : xs.length ≠ 1) (P : ℚ) :
    calculatePercentile xs P = interpVal xs ((P / 100) * ((xs.length : ℚ) + 1)) := by
  simp only [calculatePercentile, interpVal, if_neg h0, if_neg h1]

theorem calculatePercentile_mono {xs : List ℚ} (hs : xs.Sorted (· ≤ ·))
    {P1 P2 : ℚ} (hP : P1 ≤ P2) :
    calculatePercentile xs P1 ≤ calculatePercentile xs P2 := by
  by_cases h0 : xs.length = 0
  · simp [calculatePercentile, h0]
  by_cases h1 : xs.length = 1
  · simp [calculatePercentile, h0, h1]
  · rw [calculatePercentile_eq_interpVal h0 h1, calculatePercentile_eq_interpVal h0 h1]
    apply interpVal_mono hs (by omega)
    have hnn : (0 : ℚ) ≤ (xs.length : ℚ) + 1 := by positivity
    have hdiv : P1 / 100 ≤ P2 / 100 := by linarith
    exact mul_le_mul_of_nonneg_right hdiv hnn

theorem head_le_calculatePercentile {xs : List ℚ} (hs : xs.Sorted (· ≤ ·))
    (h0 : xs.length ≠ 0) (P : ℚ) : xs.getD 0 0 ≤ calculatePercentile xs P := by
  by_cases h1 : xs.length = 1
  · simp [calculatePercentile, h0, h1]
  · rw [calculatePercentile_eq_interpVal h0 h1]
    exact head_le_interpVal hs (by omega) _

theorem calculatePercentile_le_last {xs : List ℚ} (hs : xs.Sorted (· ≤ ·))
    (h0 : xs.length ≠ 0) (P : ℚ) :
    calculatePercentile xs P ≤ xs.getD (xs.length - 1) 0 := by
  by_cases h1 : xs.length = 1
  · simp [calculatePercentile, h0, h1]
  · rw [calculatePercentile_eq_interpVal h0 h1]
    exact interpVal_le_last hs (by omega) _

/-! ## Claim theorems for the percentile engine -/

/-- C1: on any sample of length at least two, `computeSalaryStats` fills each
of the three percentile fields with exactly the value of the specification's
stated rank/interpolation rule applied to the ascending-sorted sample. -/
theorem percentiles_match_spec_rule (salaries : List ℚ) (h : 2 ≤ salaries.length) :
    (computeSalaryStats salaries).p25 = specPercentileRule (sortAscending salaries) 25 ∧
    (computeSalaryStats salaries).p50 = specPercentileRule (sortAscending salaries) 50 ∧
    (computeSalaryStats salaries).p75 = specPercentileRule (sortAscending salaries) 75 := by
  have hlen : (sortAscending salaries).length = salaries.length := length_sortAscending _
  have h0 : (sortAscending salaries).length ≠ 0 := by omega
  have h1 : (sortAscending salaries).length ≠ 1 := by omega
  have key : ∀ P : ℚ, calculatePercentile (sortAscending salaries) P
      = specPercentileRule (sortAscending salaries) P := by
    intro P
    simp only [calculatePercentile, specPercentileRule, if_neg h0, if_neg h1]
  simp only [computeSalaryStats, if_neg h0]
  exact ⟨key 25, key 50, key 75⟩

/-- Witness for C1 at the spec's own four-element example sample. -/
theorem percentiles_match_spec_rule_witness :
    2 ≤ ([10000, 15000, 20000, 25000] : List ℚ).length ∧
    ((computeSalaryStats [10000, 15000, 20000, 25000]).p25 =
        specPercentileRule (sortAscending [10000, 15000, 20000, 25000]) 25 ∧
      (computeSalaryStats [10000, 15000, 20000, 25000]).p50 =
        specPercentileRule (sortAscending [10000, 15000, 20000, 25000]) 50 ∧
      (computeSalaryStats [10000, 15000, 20000, 25000]).p75 =
        specPercentileRule (sortAscending [10000, 15000, 20000, 25000]) 75) :=
  ⟨by decide, percentiles_match_spec_rule [10000, 15000, 20000, 25000] (by decide)⟩

/-- C2: on every sample, the five-number summary is ordered:
`min ≤ p25 ≤ p50 ≤ p75 ≤ max`, with no edge-case violation. -/
theorem salary_stats_monotone (salaries : List ℚ) :
    (computeSalaryStats salaries).min ≤ (computeSalaryStats salaries).p25 ∧
    (computeSalaryStats salaries).p25 ≤ (computeSalaryStats salaries).p50 ∧
    (computeSalaryStats salaries).p50 ≤ (computeSalaryStats salaries).p75 ∧
    (computeSalaryStats salaries).p75 ≤ (computeSalaryStats salaries).max := by
  by_cases h0 : (sortAscending salaries).length = 0
  · simp [computeSalaryStats, h0]
  · have hs := sorted_sortAscending salaries
    simp only [computeSalaryStats, if_neg h0]
    exact ⟨head_le_calculatePercentile hs h0 25,
      calculatePercentile_mono hs (by norm_num),
      calculatePercentile_mono hs (by norm_num),
      calculatePercentile_le_last hs h0 75⟩

/-- C8: the empty sample yields the all-zero summary and a one-element
sample yields the constant summary with `sampleSize = 1`. -/
theorem computeSalaryStats_empty_singleton :
    computeSalaryStats [] =
        { min := 0, p25 := 0, p50 := 0, p75 := 0, max := 0, sampleSize := 0 } ∧
      ∀ x : ℚ, computeSalaryStats [x] =
        { min := x, p25 := x, p50 := x, p75 := x, max := x, sampleSize := 1 } :=
  ⟨rfl, fun _ => rfl⟩

/-- C9: `sampleSize` is the sample's length, and on a non-empty sample `min`
and `max` are the least and the greatest element of the sample. -/
theorem sampleSize_min_max (s : List ℚ) :
    (computeSalaryStats s).sampleSize = s.length ∧
      (s ≠ [] →
        (computeSalaryStats s).min ∈ s ∧ (∀ x ∈ s, (computeSalaryStats s).min ≤ x) ∧
          (computeSalaryStats s).max ∈ s ∧ ∀ x ∈ s, x ≤ (computeSalaryStats s).max) := by
  have hlen : (sortAscending s).length = s.length := length_sortAscending s
  have hperm : (sortAscending s).Perm s := perm_sortAscending s
  have hs := sorted_sortAscending s
  by_cases h0 : (sortAscending s).length = 0
  · have hnil : s = [] := by
      have := hlen ▸ h0
      exact List.length_eq_zero.mp this
    subst hnil
    exact ⟨rfl, fun h => absurd rfl h⟩
  · simp only [computeSalaryStats, if_neg h0]
    refine ⟨hlen, fun _ => ⟨?_, ?_, ?_, ?_⟩⟩
    · -- min is an element
      have h01 : 0 < (sortAscending s).length := by omega
      rw [List.getD_eq_getElem _ 0 h01]
      exact hperm.mem_iff.mp (List.getElem_mem h01)
    · -- min is a lower bound
      intro x hx
      obtain ⟨i, hi⟩ := List.mem_iff_get.mp (hperm.mem_iff.mpr hx)
      have hilt := i.isLt
      have hx' : x = (sortAscending s).getD i.val 0 := by
        rw [List.getD_eq_getElem _ 0 i.isLt, ← List.get_eq_getElem, hi]
      rw [hx']
      exact getD_le_getD_of_sorted hs (Nat.zero_le _) i.isLt
    · -- max is an element
      have hn1 : (sortAscending s).length - 1 < (sortAscending s).length := by omega
      rw [List.getD_eq_getElem _ 0 hn1]
      exact hperm.mem_iff.mp (List.getElem_mem hn1)
    · -- max is an upper bound
      intro x hx
      obtain ⟨i, hi⟩ := List.mem_iff_get.mp (hperm.mem_iff.mpr hx)
      have hilt := i.isLt
      have hx' : x = (sortAscending s).getD i.val 0 := by
        rw [List.getD_eq_getElem _ 0 i.isLt, ← List.get_eq_getElem, hi]
      rw [hx']
      exact getD_le_getD_of_sorted hs (by omega) (by omega)

/-- Witness for C9 on the concrete sample `[3, 1]`. -/
theorem sampleSize_min_max_witness :
    (computeSalaryStats [3, 1]).sampleSize = 2 ∧
      (computeSalaryStats [3, 1]).min ∈ ([3, 1] : List ℚ) ∧
      (computeSalaryStats [3, 1]).min ≤ 1 ∧
      (computeSalaryStats [3, 1]).max ∈ ([3, 1] : List ℚ) ∧
      3 ≤ (computeSalaryStats [3, 1]).max := by
  obtain ⟨h1, h2⟩ := sampleSize_min_max [3, 1]
  obtain ⟨hmin, hlow, hmax, hhigh⟩ := h2 (by decide)
  exact ⟨h1, hmin, hlow 1 (by decide), hmax, hhigh 3 (by decide)⟩

theorem calculatePercentile_fifty (xs : List ℚ) (h0 : xs.length ≠ 0) :
    calculatePercentile xs 50 =
      if xs.length % 2 = 1 then xs.getD (xs.length / 2) 0
      else (xs.getD (xs.length / 2 - 1) 0 + xs.getD (xs.length / 2) 0) / 2 := by
  by_cases h1 : xs.length = 1
  · simp [calculatePercentile, h0, h1]
  · rw [calculatePercentile_eq_interpVal h0 h1]
    have hn2 : 2 ≤ xs.length := by omega
    by_cases hpar : xs.length % 2 = 1
    · -- odd length 2m+1 with m ≥ 1: the rank is exactly the integer m+1
      obtain ⟨m, hm⟩ : ∃ m, xs.length = 2 * m + 1 := ⟨xs.length / 2, by omega⟩
      have hm1 : 1 ≤ m := by omega
      have hcast : (xs.length : ℚ) = 2 * (m : ℚ) + 1 := by rw [hm]; push_cast; ring
      have hL : (50 / 100 : ℚ) * ((xs.length : ℚ) + 1) = (m : ℚ) + 1 := by
        rw [hcast]; ring
      have hfl : ⌊(50 / 100 : ℚ) * ((xs.length : ℚ) + 1)⌋ = (m : ℤ) + 1 := by
        rw [hL, show ((m : ℚ) + 1) = (((m : ℤ) + 1 : ℤ) : ℚ) by push_cast; ring]
        exact Int.floor_intCast _
      have hni : ¬(⌊(50 / 100 : ℚ) * ((xs.length : ℚ) + 1)⌋ - 1 : ℤ) < 0 := by
        rw [hfl]; omega
      have hni2 : ¬(⌊(50 / 100 : ℚ) * ((xs.length : ℚ) + 1)⌋ - 1 : ℤ) ≥
          (xs.length : ℤ) - 1 := by
        rw [hfl]; omega
      rw [interpVal_eq_interior hni hni2, hfl]
      have ht : ((m : ℤ) + 1 - 1).toNat = m := by omega
      have hd : (50 / 100 : ℚ) * ((xs.length : ℚ) + 1) - (((m : ℤ) + 1 : ℤ) : ℚ) = 0 := by
        push_cast
        rw [hcast]; ring
      rw [ht, hd, mul_zero, add_zero, if_pos hpar, show xs.length / 2 = m from by omega]
    · -- even length 2m with m ≥ 1: the rank is m + 1/2
      obtain ⟨m, hm⟩ : ∃ m, xs.length = 2 * m := ⟨xs.length / 2, by omega⟩
      have hm1 : 1 ≤ m := by omega
      have hcast : (xs.length : ℚ) = 2 * (m : ℚ) := by rw [hm]; push_cast; ring
      have hL : (50 / 100 : ℚ) * ((xs.length : ℚ) + 1) = (m : ℚ) + 1 / 2 := by
        rw [hcast]; ring
      have hfl : ⌊(50 / 100 : ℚ) * ((xs.length : ℚ) + 1)⌋ = (m : ℤ) := by
        rw [hL]
        refine Int.floor_eq_iff.mpr ⟨?_, ?_⟩ <;> push_cast <;> linarith
      have hni : ¬(⌊(50 / 100 : ℚ) * ((xs.length : ℚ) + 1)⌋ - 1 : ℤ) < 0 := by
        rw [hfl]; omega
      have hni2 : ¬(⌊(50 / 100 : ℚ) * ((xs.length : ℚ) + 1)⌋ - 1 : ℤ) ≥
          (xs.length : ℤ) - 1 := by
        rw [hfl]; omega
      rw [interpVal_eq_interior hni hni2, hfl]
      have ht : ((m : ℤ) - 1).toNat = m - 1 := by omega
      have hd : (50 / 100 : ℚ) * ((xs.length : ℚ) + 1) - ((m : ℤ) : ℚ) = 1 / 2 := by
        push_cast
        rw [hcast]; ring
      rw [ht, hd, show m - 1 + 1 = m from by omega, if_neg hpar,
        show xs.length / 2 = m from by omega]
      ring

/-- C10: on every non-empty sample, the `p50` produced by the `n+1`-scaled
interpolation rule coincides with the textbook median. -/
theorem p50_eq_textbookMedian (s : List ℚ) (h : s ≠ []) :
    (computeSalaryStats s).p50 = textbookMedian s := by
  have hlen := length_sortAscending s
  have h0 : (sortAscending s).length ≠ 0 := by
    rw [hlen]
    intro hc
    exact h (List.length_eq_zero.mp hc)
  simp only [computeSalaryStats, textbookMedian, if_neg h0]
  exact calculatePercentile_fifty _ h0

/-- Witness for C10 on the concrete even-length sample `[20, 10]`. -/
theorem p50_eq_textbookMedian_witness :
    (computeSalaryStats [20, 10]).p50 = textbookMedian [20, 10] :=
  p50_eq_textbookMedian [20, 10] (by decide)

/-! ## Claim theorems for the aggregation pipeline -/

/-- C5: each surviving posting contributes `(min + max) / 2` to the monthly
sample and that monthly value times its `monthsPerYear` to the yearly
sample, position by position. -/
theorem salary_sample_contribution (posData : List CrawledJobData) (i : ℕ)
    (h : i < posData.length) :
    (monthlySalariesOf posData).getD i 0 =
        ((posData.get ⟨i, h⟩).minMonthlySalary + (posData.get ⟨i, h⟩).maxMonthlySalary) / 2 ∧
      (yearlySalariesOf posData).getD i 0 =
        (monthlySalariesOf posData).getD i 0 * (posData.get ⟨i, h⟩).monthsPerYear := by
  have hm : i < (monthlySalariesOf posData).length := by
    simpa [monthlySalariesOf] using h
  have hy : i < (yearlySalariesOf posData).length := by
    simpa [yearlySalariesOf] using h
  constructor
  · rw [List.getD_eq_getElem _ 0 hm]
    simp [monthlySalariesOf, List.getElem_map, List.get_eq_getElem]
  · rw [List.getD_eq_getElem _ 0 hy, List.getD_eq_getElem _ 0 hm]
    simp [monthlySalariesOf, yearlySalariesOf, List.getElem_map, List.get_eq_getElem]

/-- Witness for C5 at the spec's annualization example: the posting with
`min=10000, max=20000, monthsPerYear=13` contributes `15000` monthly and
exactly `195000` yearly. -/
theorem salary_sample_contribution_witness :
    0 < ([sampleJob] : List CrawledJobData).length ∧
      (monthlySalariesOf [sampleJob]).getD 0 0 = 15000 ∧
      (yearlySalariesOf [sampleJob]).getD 0 0 = 195000 := by
  have h : 0 < ([sampleJob] : List CrawledJobData).length := by decide
  obtain ⟨h1, h2⟩ := salary_sample_contribution [sampleJob] 0 h
  refine ⟨h, ?_, ?_⟩
  · rw [h1]
    norm_num [sampleJob, jobGzComp]
  · rw [h2, h1]
    norm_num [sampleJob, jobGzComp]

theorem visibleStat_eq_true {data : List CrawledJobData} {q : String}
    {stat : AggregatedStat} :
    visibleStat data q stat = true ↔
      ((q = "" ∨ strIncludes stat.targetPosition.name.toLower q.toLower = true) ∧
        ∃ d ∈ data, d.targetPositionId = stat.targetPosition.id) := by
  by_cases hq : q = ""
  · subst hq
    simp [visibleStat, List.any_eq_true, beq_iff_eq]
  · have h1 : (q != "") = true := bne_iff_ne.mpr hq
    by_cases hinc : strIncludes stat.targetPosition.name.toLower q.toLower = true
    · simp [visibleStat, h1, hinc, hq, List.any_eq_true, beq_iff_eq]
    · have h2 : strIncludes stat.targetPosition.name.toLower q.toLower = false :=
        Bool.eq_false_iff.mpr hinc
    
      simp [visibleStat, h1, h2, hq]

/-- C3: a target position is emitted by the pipeline exactly when some
posting with its id exists anywhere in the full collection and its name
passes the text-search filter; a position whose per-position `CUSTOM`
filter has an empty allow-set is still emitted, with `sampleSize = 0` and
all-zero monthly and yearly statistics. -/
theorem aggregated_visibility (data : List CrawledJobData)
    (targetPositions : List TargetPosition) (selectedLocations : List String)
    (positionFilters : List (String × PositionFilter)) (searchQuery : String)
    (pos : TargetPosition) (hmem : pos ∈ targetPositions) :
    ((∃ st ∈ aggregatedStats data targetPositions selectedLocations positionFilters
          searchQuery, st.targetPosition = pos) ↔
        ((searchQuery = "" ∨ strIncludes pos.name.toLower searchQuery.toLower = true) ∧
          ∃ d ∈ data, d.targetPositionId = pos.id)) ∧
      (getFilterForPosition positionFilters pos.id =
          { mode := FilterMode.CUSTOM, selectedCompanies := [] } →
        ∀ st ∈ aggregatedStats data targetPositions selectedLocations positionFilters
            searchQuery, st.targetPosition = pos →
          st.sampleSize = 0 ∧
            st.monthly =
              { min := 0, p25 := 0, p50 := 0, p75 := 0, max := 0, sampleSize := 0 } ∧
            st.yearly =
              { min := 0, p25 := 0, p50 := 0, p75 := 0, max := 0, sampleSize := 0 }) := by
  constructor
  · constructor
    · rintro ⟨st, hst, rfl⟩
      rw [aggregatedStats, List.mem_filter] at hst
      exact visibleStat_eq_true.mp hst.2
    · intro hrhs
      refine ⟨aggregateForPosition data selectedLocations positionFilters pos, ?_, rfl⟩
      rw [aggregatedStats, List.mem_filter]
      exact ⟨List.mem_map_of_mem _ hmem, visibleStat_eq_true.mpr hrhs⟩
  · intro hf st hst hstpos
    rw [aggregatedStats, List.mem_filter] at hst
    obtain ⟨pos', hpos', heq⟩ := List.mem_map.mp hst.1
    subst heq
    have hpp : pos' = pos := hstpos
    subst hpp
    have hnil : posDataFor data selectedLocations positionFilters pos' = [] := by
      simp [posDataFor, hf]
    refine ⟨?_, ?_, ?_⟩ <;>
      simp [aggregateForPosition, hnil, monthlySalariesOf, yearlySalariesOf,
        computeSalaryStats, sortAscending]

/-- Witness for C3: with one posting collected for `pos1` and a `CUSTOM`
filter with an empty allow-set, `pos1` is still emitted. -/
theorem aggregated_visibility_witness :
    pos1 ∈ ([pos1] : List TargetPosition) ∧
      ∃ st ∈ aggregatedStats [jobGzComp] [pos1] [] customEmptyFilters "",
        st.targetPosition = pos1 := by
  have H := aggregated_visibility [jobGzComp] [pos1] [] customEmptyFilters "" pos1
    (List.mem_singleton_self pos1)
  exact ⟨List.mem_singleton_self pos1,
    H.1.mpr ⟨Or.inl rfl, jobGzComp, List.mem_singleton_self _, rfl⟩⟩

/-- C4: with the per-position filter in `ONLY_COMPETITORS` mode, the sample
fed to `computeSalaryStats` is exactly the plain intersection filter
"matching position id AND location matching some selected location (no
restriction when the location filter is empty) AND competitor flag set",
and the emitted `sampleSize`, monthly and yearly statistics are computed
from exactly that hand-filtered set. -/
theorem onlyCompetitors_sample_eq (data : List CrawledJobData)
    (selectedLocations : List String) (positionFilters : List (String × PositionFilter))
    (pos : TargetPosition)
    (hf : (getFilterForPosition positionFilters pos.id).mode = FilterMode.ONLY_COMPETITORS) :
    posDataFor data selectedLocations positionFilters pos =
        data.filter (fun d =>
          d.targetPositionId == pos.id &&
            (selectedLocations.isEmpty ||
              selectedLocations.any (fun loc => strIncludes d.location loc)) &&
            d.isCompetitor) ∧
      (aggregateForPosition data selectedLocations positionFilters pos).sampleSize =
        (data.filter (fun d =>
          d.targetPositionId == pos.id &&
            (selectedLocations.isEmpty ||
              selectedLocations.any (fun loc => strIncludes d.location loc)) &&
            d.isCompetitor)).length ∧
      (aggregateForPosition data selectedLocations positionFilters pos).monthly =
        computeSalaryStats (monthlySalariesOf (data.filter (fun d =>
          d.targetPositionId == pos.id &&
            (selectedLocations.isEmpty ||
              selectedLocations.any (fun loc => strIncludes d.location loc)) &&
            d.isCompetitor))) ∧
      (aggregateForPosition data selectedLocations positionFilters pos).yearly =
        computeSalaryStats (yearlySalariesOf (data.filter (fun d =>
          d.targetPositionId == pos.id &&
            (selectedLocations.isEmpty ||
              selectedLocations.any (fun loc => strIncludes d.location loc)) &&
            d.isCompetitor))) := by
  have hkey : posDataFor data selectedLocations positionFilters pos =
      data.filter (fun d =>
        d.targetPositionId == pos.id &&
          (selectedLocations.isEmpty ||
            selectedLocations.any (fun loc => strIncludes d.location loc)) &&
          d.isCompetitor) := by
    simp only [posDataFor, hf]
    by_cases hloc : selectedLocations.length > 0
    · rw [if_pos hloc, List.filter_filter, List.filter_filter]
      apply List.filter_congr
      intro d _
      have hne : selectedLocations.isEmpty = false := by
        cases selectedLocations with
        | nil => simp at hloc
        | cons a l => rfl
      rw [hne]
      cases hA : (d.targetPositionId == pos.id) <;>
        cases hB : selectedLocations.any (fun loc => strIncludes d.location loc) <;>
          cases hC : d.isCompetitor <;> rfl
    · rw [if_neg hloc, List.filter_filter]
      apply List.filter_congr
      intro d _
      have hne : selectedLocations.isEmpty = true := by
        cases selectedLocations with
        | nil => rfl
        | cons a l => simp at hloc
      rw [hne]
      cases hA : (d.targetPositionId == pos.id) <;> cases hC : d.isCompetitor <;> rfl
  refine ⟨hkey, ?_, ?_, ?_⟩ <;> simp only [aggregateForPosition, hkey]

/-- Witness for C4 on a three-posting collection over two locations with
mixed competitor status, location filter `["广州"]` and the
`ONLY_COMPETITORS` filter for `pos1`: only `jobGzComp` survives. -/
theorem onlyCompetitors_sample_eq_witness :
    (getFilterForPosition compFilters pos1.id).mode = FilterMode.ONLY_COMPETITORS ∧
      posDataFor marketData ["广州"] compFilters pos1 =
        marketData.filter (fun d =>
          d.targetPositionId == pos1.id &&
            ((["广州"] : List String).isEmpty ||
              (["广州"] : List String).any (fun loc => strIncludes d.location loc)) &&
            d.isCompetitor) ∧
      (aggregateForPosition marketData ["广州"] compFilters pos1).sampleSize =
        (marketData.filter (fun d =>
          d.targetPositionId == pos1.id &&
            ((["广州"] : List String).isEmpty ||
              (["广州"] : List String).any (fun loc => strIncludes d.location loc)) &&
            d.isCompetitor)).length ∧
      posDataFor marketData ["广州"] compFilters pos1 = [jobGzComp] := by
  have hf : (getFilterForPosition compFilters pos1.id).mode =
      FilterMode.ONLY_COMPETITORS := rfl
  obtain ⟨h1, h2, -, -⟩ :=
    onlyCompetitors_sample_eq marketData ["广州"] compFilters pos1 hf
  refine ⟨hf, h1, h2, ?_⟩
  rw [h1]
  decide

/-! ## Claim theorems for the ingestion boundary and the import adapter -/

/-- C6 (amended): every record built on the success path of
`simulateMarketCrawl` has `isCompetitor = true` exactly when some competitor
entry of the owning position is a case-insensitive substring of the
company name; the fallback record always carries `isCompetitor = true`,
which agrees with that rule whenever the competitor set is non-empty
(its company name is then the first competitor itself). -/
theorem ingestion_isCompetitor (target : TargetPosition) (now randomLink : String)
    (item : RawPosting) (index : ℕ) :
    ((crawlResultItem target now randomLink item index).isCompetitor = true ↔
        ∃ c ∈ target.competitors,
          strIncludes (crawlResultItem target now randomLink item index).companyName.toLower
            c.toLower = true) ∧
      (target.competitors ≠ [] →
        ∀ job ∈ simulateMarketCrawlFallback target,
          job.isCompetitor = true ∧
            ∃ c ∈ target.competitors,
              strIncludes job.companyName.toLower c.toLower = true) := by
  constructor
  · simp [crawlResultItem, List.any_eq_true]
  · intro hne job hjob
    simp only [simulateMarketCrawlFallback, List.mem_singleton] at hjob
    subst hjob
    refine ⟨rfl, ?_⟩
    obtain ⟨c0, cs, hc⟩ : ∃ c0 cs, target.competitors = c0 :: cs := by
      cases hcs : target.competitors with
      | nil => exact absurd hcs hne
      | cons a l => exact ⟨a, l, rfl⟩
    show ∃ c ∈ target.competitors,
      strIncludes (target.competitors.headD "未知公司").toLower c.toLower = true
    rw [hc, List.headD_cons]
    exact ⟨c0, List.mem_cons_self c0 cs, decide_eq_true (List.infix_refl _)⟩

/-- Counterexample for C6 as stated: for a target position with an empty
competitor set, the fallback record ingested after a provider failure has
`isCompetitor = true` although no competitor entry matches its company
name, so the claimed equivalence fails on that record. -/
theorem ingestion_isCompetitor_counterexample :
    ¬ ∀ job ∈ simulateMarketCrawlFallback emptyCompetitorTarget,
        (job.isCompetitor = true ↔
          ∃ c ∈ emptyCompetitorTarget.competitors,
            strIncludes job.companyName.toLower c.toLower = true) := by
  intro h
  obtain ⟨c, hc, -⟩ := (h _ (List.mem_singleton_self _)).mp rfl
  exact absurd hc (List.not_mem_nil c)

/-- Witness for C6 (amended) at a concrete raw posting whose company name is
the competitor entry itself. -/
theorem ingestion_isCompetitor_witness :
    sheinTarget.competitors ≠ [] ∧
      (crawlResultItem sheinTarget "0" "L" sheinRaw 0).isCompetitor = true := by
  have hne : sheinTarget.competitors ≠ [] := by
    simp [sheinTarget, pos1]
  refine ⟨hne, ?_⟩
  exact (ingestion_isCompetitor sheinTarget "0" "L" sheinRaw 0).1.mpr
    ⟨"SHEIN", List.mem_cons_self _ _, decide_eq_true (List.infix_refl _)⟩

/-- Counterexample for C7 as stated: a spreadsheet row carrying a position
name but no responsibilities field produces no imported position, although
the claim says every row with at least one of the two fields yields one. -/
theorem importRow_counterexample :
    ¬ ∀ (row : SheetRow) (newId : String),
        (row.name.isSome = true ∨ row.resp.isSome = true) →
          (importRow row newId).isSome = true := by
  intro h
  have hx := h ⟨some "QA工程师", none, none, none⟩ "imported-1" (Or.inl rfl)
  simp [importRow] at hx

/-- C7 (amended): the import adapter keeps a spreadsheet row exactly when
both the position-name field and the responsibilities field are present;
a row missing either one (or both) is dropped. -/
theorem importRow_keeps_iff_both (row : SheetRow) (newId : String) :
    (importRow row newId).isSome = true ↔
      (row.name.isSome = true ∧ row.resp.isSome = true) := by
  cases hn : row.name <;> cases hr : row.resp <;> simp [importRow, hn, hr]
